import Mathlib

/-!
Verification of the per-frame transition computation engine of
`enhanced_video_transitions.py` (class `EnhancedVideoTransitions`).

Embedding conventions:
* Python floats are idealised as real numbers (`ℝ`).
* A frame is modelled as a single colour channel `Img := ℤ → ℤ → ℕ`, a pixel
  function over integer coordinates; OpenCV applies every operation used here
  (addWeighted, filter2D, GaussianBlur, np.roll) channel-wise, so one channel
  suffices to state the claims.  A frame of a `w × h` pipeline is *valid* when
  all its samples fit in 8 bits (`≤ 255`).
* `cv2` saturating uint8 arithmetic is `saturate_u8`: round to nearest, clamp
  to `[0, 255]`.
* Python's `int(x)` truncates toward zero: `pyInt`.
* `cv2.VideoCapture.read` is a `FrameSource`: a `List Img` that yields its
  elements in order and then signals end-of-stream.  The `FrameSink`
  (`cv2.VideoWriter.write`) is modelled by collecting the emitted frames in a
  list.  `cv2.resize` is the identity here: per the data model all frames
  entering the core already have the configured dimensions.  `cv2.putText`
  (the diagnostic overlay) is presentation glue and is not modelled.
-/

namespace EVT

/-- One colour channel of a raster image, as a pixel function. -/
abbrev Img : Type := ℤ → ℤ → ℕ

/-- A frame is valid when every sample is an 8-bit value. -/
def ValidImg (f : Img) : Prop := ∀ y x : ℤ, f y x ≤ 255

/-- Python `int(x)`: truncation toward zero. -/
noncomputable def pyInt (x : ℝ) : ℤ := if 0 ≤ x then ⌊x⌋ else ⌈x⌉

/-- OpenCV uint8 saturating cast: round to nearest, clamp to `[0, 255]`. -/
noncomputable def saturate_u8 (x : ℝ) : ℕ := (min 255 (max 0 (round x))).toNat

/-- `cosine_interpolation(progress)` (source line 27):
`(1 - math.cos(progress * math.pi)) / 2`. -/
noncomputable def cosine_interpolation (progress : ℝ) : ℝ :=
  (1 - Real.cos (progress * Real.pi)) / 2

/-- `progressive_blur_intensity(progress)` (source line 31):
`4.0 * progress * (1.0 - progress)`. -/
def progressive_blur_intensity (progress : ℝ) : ℝ :=
  4 * progress * (1 - progress)

/-- `motion_blur_kernel_size(motion_intensity)` (source line 35):
`max(3, int(motion_intensity * 30) + 1)`.  (No oddness adjustment here;
callers adjust.) -/
noncomputable def motion_blur_kernel_size (motion_intensity : ℝ) : ℤ :=
  max 3 (pyInt (motion_intensity * 30) + 1)

/-- The `if kernel_size % 2 == 0: kernel_size += 1` adjustment performed by
both `apply_progressive_blur` (lines 45–46) and `apply_motion_blur`
(lines 52–53). -/
def oddize (k : ℤ) : ℤ := if k % 2 = 0 then k + 1 else k

/-- The kernel size computed by `apply_progressive_blur` (lines 44–46):
`max(3, int(blur_intensity * 30) + 1)`, incremented if even. -/
noncomputable def apply_progressive_blur_kernel_size (blur_intensity : ℝ) : ℤ :=
  oddize (max 3 (pyInt (blur_intensity * 30) + 1))

/-- The kernel size effectively used by `apply_motion_blur` (lines 51–53):
`motion_blur_kernel_size`, incremented if even. -/
noncomputable def apply_motion_blur_kernel_size (motion_intensity : ℝ) : ℤ :=
  oddize (motion_blur_kernel_size motion_intensity)

/-- The spec's `kernel_size_from_intensity`: `max(3, floor(intensity·30) + 1)`,
rounded up to the next odd value if even.  Stated from the spec's words, to be
compared with the two source-side kernel computations. -/
noncomputable def kernel_size_from_intensity (intensity : ℝ) : ℤ :=
  let k := max 3 (⌊intensity * 30⌋ + 1)
  if k % 2 = 0 then k + 1 else k

/-- `cv2.addWeighted(frame1, α, frame2, β, γ)` on uint8 frames, channel-wise:
saturating `frame1·α + frame2·β + γ`. -/
noncomputable def addWeighted (f1 f2 : Img) (a b g : ℝ) : Img :=
  fun y x => saturate_u8 ((f1 y x : ℝ) * a + (f2 y x : ℝ) * b + g)

/-- `enhanced_blend_frames(frame1, frame2, alpha)` (lines 39–40):
`cv2.addWeighted(frame1, 1 - smooth_alpha, frame2, smooth_alpha, 0)` with
`smooth_alpha = cosine_interpolation(alpha)`. -/
noncomputable def enhanced_blend_frames (f1 f2 : Img) (alpha : ℝ) : Img :=
  addWeighted f1 f2 (1 - cosine_interpolation alpha) (cosine_interpolation alpha) 0

-- ### Basic facts about the scalar helpers

theorem pyInt_of_nonneg {x : ℝ} (h : 0 ≤ x) : pyInt x = ⌊x⌋ := if_pos h

theorem oddize_odd (k : ℤ) : Odd (oddize k) := by
  unfold oddize
  split <;> rename_i h <;> rw [Int.odd_iff] <;> omega

theorem oddize_le_succ (k : ℤ) : oddize k ≤ k + 1 := by
  unfold oddize; split <;> omega

theorem le_oddize (k : ℤ) : k ≤ oddize k := by
  unfold oddize; split <;> omega

theorem oddize_mono {a b : ℤ} (h : a ≤ b) : oddize a ≤ oddize b := by
  rcases eq_or_lt_of_le h with rfl | hlt
  · exact le_refl _
  · calc oddize a ≤ a + 1 := oddize_le_succ a
      _ ≤ b := by omega
      _ ≤ oddize b := le_oddize b

theorem cosine_interpolation_zero : cosine_interpolation 0 = 0 := by
  unfold cosine_interpolation
  rw [zero_mul, Real.cos_zero]
  ring

theorem cosine_interpolation_one : cosine_interpolation 1 = 1 := by
  unfold cosine_interpolation
  rw [one_mul, Real.cos_pi]
  ring

theorem cosine_interpolation_half : cosine_interpolation (1 / 2) = 1 / 2 := by
  unfold cosine_interpolation
  rw [show (1 / 2 : ℝ) * Real.pi = Real.pi / 2 by ring, Real.cos_pi_div_two]
  ring

theorem cosine_interpolation_mono {p q : ℝ} (hp : 0 ≤ p) (hpq : p ≤ q) (hq : q ≤ 1) :
    cosine_interpolation p ≤ cosine_interpolation q := by
  unfold cosine_interpolation
  have hpi := Real.pi_pos
  have hcos : Real.cos (q * Real.pi) ≤ Real.cos (p * Real.pi) := by
    apply Real.cos_le_cos_of_nonneg_of_le_pi
    · exact mul_nonneg hp hpi.le
    · nlinarith
    · nlinarith
  linarith

-- ### C4: easing function

/-- C4: the easing function `cosine_interpolation` equals
`(1 − cos(progress·π))/2`, satisfies `ease 0 = 0`, `ease 1 = 1`,
`ease (1/2) = 1/2`, and is monotonically non-decreasing on `[0, 1]`. -/
theorem C4_ease_props :
    (∀ p : ℝ, cosine_interpolation p = (1 - Real.cos (p * Real.pi)) / 2) ∧
    cosine_interpolation 0 = 0 ∧
    cosine_interpolation 1 = 1 ∧
    cosine_interpolation (1 / 2) = 1 / 2 ∧
    (∀ p q : ℝ, 0 ≤ p → p ≤ q → q ≤ 1 →
      cosine_interpolation p ≤ cosine_interpolation q) := by
  refine ⟨fun p => rfl, cosine_interpolation_zero, cosine_interpolation_one,
    cosine_interpolation_half, fun p q hp hpq hq => cosine_interpolation_mono hp hpq hq⟩

/-- Witness for C4: the monotonicity part at the concrete pair `(0, 1)`. -/
theorem C4_witness : cosine_interpolation 0 ≤ cosine_interpolation 1 :=
  C4_ease_props.2.2.2.2 0 1 (by norm_num) (by norm_num) (by norm_num)

-- ### C5: pulse intensity

/-- C5: `progressive_blur_intensity` equals `4·p·(1−p)`, vanishes at both
endpoints, and attains its maximum value 1 at `p = 1/2`. -/
theorem C5_pulse_props :
    (∀ p : ℝ, progressive_blur_intensity p = 4 * p * (1 - p)) ∧
    progressive_blur_intensity 0 = 0 ∧
    progressive_blur_intensity 1 = 0 ∧
    progressive_blur_intensity (1 / 2) = 1 ∧
    (∀ p : ℝ, 0 ≤ p → p ≤ 1 → progressive_blur_intensity p ≤ 1) := by
  refine ⟨fun p => rfl, by norm_num [progressive_blur_intensity],
    by norm_num [progressive_blur_intensity],
    by norm_num [progressive_blur_intensity], fun p hp hp1 => ?_⟩
  unfold progressive_blur_intensity
  nlinarith [sq_nonneg (2 * p - 1)]

/-- Witness for C5: the bound part at the concrete input `1/2`, where the
maximum is attained. -/
theorem C5_witness : progressive_blur_intensity (1 / 2) ≤ 1 :=
  C5_pulse_props.2.2.2.2 (1 / 2) (by norm_num) (by norm_num)

-- ### C3: kernel size derivation

theorem kernel_sizes_agree (i : ℝ) :
    apply_progressive_blur_kernel_size i = apply_motion_blur_kernel_size i := rfl

theorem kernel_size_from_intensity_eq (i : ℝ) (hi : 0 ≤ i) :
    apply_motion_blur_kernel_size i = kernel_size_from_intensity i := by
  unfold apply_motion_blur_kernel_size motion_blur_kernel_size
    kernel_size_from_intensity oddize
  rw [pyInt_of_nonneg (by positivity)]

theorem apply_motion_blur_kernel_size_odd (i : ℝ) :
    Odd (apply_motion_blur_kernel_size i) := oddize_odd _

theorem apply_motion_blur_kernel_size_ge_three (i : ℝ) :
    3 ≤ apply_motion_blur_kernel_size i := by
  calc (3 : ℤ) ≤ motion_blur_kernel_size i := le_max_left _ _
    _ ≤ _ := le_oddize _

theorem apply_motion_blur_kernel_size_mono {i j : ℝ} (hi : 0 ≤ i) (hij : i ≤ j) :
    apply_motion_blur_kernel_size i ≤ apply_motion_blur_kernel_size j := by
  apply oddize_mono
  unfold motion_blur_kernel_size
  have h30 : i * 30 ≤ j * 30 := by nlinarith
  rw [pyInt_of_nonneg (by positivity), pyInt_of_nonneg (by nlinarith)]
  have := Int.floor_le_floor (α := ℝ) h30
  omega

/-- C3: the effective kernel size (the shared derivation of
`apply_progressive_blur` and `apply_motion_blur`) equals the spec formula
`max(3, ⌊intensity·30⌋ + 1)` rounded up to the next odd value; it is always
odd, always `≥ 3`, and non-decreasing on `[0, 1]`. -/
theorem C3_kernel_size_props :
    (∀ i : ℝ, 0 ≤ i → i ≤ 1 →
      apply_progressive_blur_kernel_size i = kernel_size_from_intensity i ∧
      apply_motion_blur_kernel_size i = kernel_size_from_intensity i ∧
      Odd (apply_motion_blur_kernel_size i) ∧
      3 ≤ apply_motion_blur_kernel_size i) ∧
    (∀ i j : ℝ, 0 ≤ i → i ≤ j → j ≤ 1 →
      apply_motion_blur_kernel_size i ≤ apply_motion_blur_kernel_size j) := by
  refine ⟨fun i hi _ => ⟨?_, kernel_size_from_intensity_eq i hi,
    apply_motion_blur_kernel_size_odd i, apply_motion_blur_kernel_size_ge_three i⟩,
    fun i j hi hij _ => apply_motion_blur_kernel_size_mono hi hij⟩
  rw [kernel_sizes_agree]
  exact kernel_size_from_intensity_eq i hi

/-- Witness for C3 at intensity `0`: the kernel size is `3`, odd, and the
monotonicity part holds for the pair `(0, 1)`. -/
theorem C3_witness :
    (apply_progressive_blur_kernel_size 0 = kernel_size_from_intensity 0 ∧
     apply_motion_blur_kernel_size 0 = kernel_size_from_intensity 0 ∧
     Odd (apply_motion_blur_kernel_size 0) ∧
     3 ≤ apply_motion_blur_kernel_size 0) ∧
    apply_motion_blur_kernel_size 0 ≤ apply_motion_blur_kernel_size 1 :=
  ⟨C3_kernel_size_props.1 0 (by norm_num) (by norm_num),
   C3_kernel_size_props.2 0 1 (by norm_num) (by norm_num) (by norm_num)⟩

-- ### C10: kernel size bounds

theorem apply_motion_blur_kernel_size_le (i : ℝ) (hi : 0 ≤ i) (hi1 : i ≤ 1) :
    apply_motion_blur_kernel_size i ≤ 31 := by
  unfold apply_motion_blur_kernel_size motion_blur_kernel_size
  rw [pyInt_of_nonneg (by positivity)]
  have hfl : ⌊i * 30⌋ ≤ 30 := by
    have : i * 30 ≤ 30 := by nlinarith
    calc ⌊i * 30⌋ ≤ ⌊(30 : ℝ)⌋ := Int.floor_le_floor this
      _ = 30 := by norm_num
  unfold oddize
  split <;> rename_i h <;> omega

/-- C10 (implicit): for every intensity in `[0, 1]`, the effective convolution
kernel size used by `apply_progressive_blur` and by `apply_motion_blur` (after
the evenness adjustment) lies between 3 and 31 inclusive. -/
theorem C10_kernel_bounds :
    ∀ i : ℝ, 0 ≤ i → i ≤ 1 →
      3 ≤ apply_progressive_blur_kernel_size i ∧
      apply_progressive_blur_kernel_size i ≤ 31 ∧
      3 ≤ apply_motion_blur_kernel_size i ∧
      apply_motion_blur_kernel_size i ≤ 31 := by
  intro i hi hi1
  rw [kernel_sizes_agree]
  exact ⟨apply_motion_blur_kernel_size_ge_three i,
    apply_motion_blur_kernel_size_le i hi hi1,
    apply_motion_blur_kernel_size_ge_three i,
    apply_motion_blur_kernel_size_le i hi hi1⟩

/-- Witness for C10 at intensity `1` (kernel size 31, the upper bound). -/
theorem C10_witness :
    3 ≤ apply_progressive_blur_kernel_size 1 ∧
    apply_progressive_blur_kernel_size 1 ≤ 31 ∧
    3 ≤ apply_motion_blur_kernel_size 1 ∧
    apply_motion_blur_kernel_size 1 ≤ 31 :=
  C10_kernel_bounds 1 (by norm_num) (by norm_num)

-- ### C8: blend identities

theorem saturate_u8_natCast {n : ℕ} (h : n ≤ 255) : saturate_u8 (n : ℝ) = n := by
  unfold saturate_u8
  rw [round_natCast]
  omega

/-- C8: `enhanced_blend_frames A A p = A` for every valid frame `A` and every
progress `p`; `enhanced_blend_frames A B 0 = A` and
`enhanced_blend_frames A B 1 = B` for valid frames (boundary fidelity). -/
theorem C8_blend_props :
    (∀ (A : Img) (p : ℝ), ValidImg A → enhanced_blend_frames A A p = A) ∧
    (∀ A B : Img, ValidImg A → enhanced_blend_frames A B 0 = A) ∧
    (∀ A B : Img, ValidImg B → enhanced_blend_frames A B 1 = B) := by
  refine ⟨fun A p hA => ?_, fun A B hA => ?_, fun A B hB => ?_⟩
  · funext y x
    unfold enhanced_blend_frames addWeighted
    rw [show (A y x : ℝ) * (1 - cosine_interpolation p)
        + (A y x : ℝ) * cosine_interpolation p + 0 = (A y x : ℝ) by ring]
    exact saturate_u8_natCast (hA y x)
  · funext y x
    unfold enhanced_blend_frames addWeighted
    rw [cosine_interpolation_zero]
    rw [show (A y x : ℝ) * (1 - 0) + (B y x : ℝ) * 0 + 0 = (A y x : ℝ) by ring]
    exact saturate_u8_natCast (hA y x)
  · funext y x
    unfold enhanced_blend_frames addWeighted
    rw [cosine_interpolation_one]
    rw [show (A y x : ℝ) * (1 - 1) + (B y x : ℝ) * 1 + 0 = (B y x : ℝ) by ring]
    exact saturate_u8_natCast (hB y x)

/-- All-black frame (sample value 0 everywhere). -/
def blackImg : Img := fun _ _ => 0

/-- Mid-gray frame (sample value 128 everywhere). -/
def grayImg : Img := fun _ _ => 128

theorem blackImg_valid : ValidImg blackImg := fun _ _ => by norm_num [blackImg]

theorem grayImg_valid : ValidImg grayImg := fun _ _ => by norm_num [grayImg]

/-- Witness for C8 on concrete frames: gray blended with itself at `p = 1/2`
is gray, and the boundary blends of black with gray return the endpoints. -/
theorem C8_witness :
    enhanced_blend_frames grayImg grayImg (1 / 2) = grayImg ∧
    enhanced_blend_frames blackImg grayImg 0 = blackImg ∧
    enhanced_blend_frames blackImg grayImg 1 = grayImg :=
  ⟨C8_blend_props.1 grayImg (1 / 2) grayImg_valid,
   C8_blend_props.2.1 blackImg grayImg blackImg_valid,
   C8_blend_props.2.2 blackImg grayImg grayImg_valid⟩

-- ### C6: directional motion blur dispatch

/-- OpenCV's default `BORDER_REFLECT_101` extrapolation: maps an arbitrary
coordinate into `[0, n)` by reflecting about the edge pixels (period
`2·(n−1)`), e.g. `-1 ↦ 1` and `n ↦ n − 2`.  Degenerate extents (`n ≤ 1`) pin
to coordinate 0. -/
def borderReflect101 (n : ℕ) (i : ℤ) : ℤ :=
  if n ≤ 1 then 0
  else
    let m := i % (2 * ((n : ℤ) - 1))
    if m < (n : ℤ) then m else 2 * ((n : ℤ) - 1) - m

/-- A uniform-weight (`1/k`) 1-D convolution of length `k` along the
horizontal axis, centred (anchor `k / 2`), with reflect-101 borders and
saturating uint8 output.  This is the claim-side description of the
horizontal motion-blur branch. -/
noncomputable def boxBlur1D_horizontal (w : ℕ) (frame : Img) (k : ℤ) : Img :=
  fun y x => saturate_u8 (∑ t ∈ Finset.range k.toNat,
    1 / (k : ℝ) * (frame y (borderReflect101 w (x + t - k / 2)) : ℝ))

/-- A uniform-weight (`1/k`) 1-D convolution of length `k` along the vertical
axis, centred, with reflect-101 borders and saturating uint8 output. -/
noncomputable def boxBlur1D_vertical (h : ℕ) (frame : Img) (k : ℤ) : Img :=
  fun y x => saturate_u8 (∑ t ∈ Finset.range k.toNat,
    1 / (k : ℝ) * (frame (borderReflect101 h (y + t - k / 2)) x : ℝ))

/-- `apply_motion_blur(frame, motion_intensity, direction)` (lines 49–66):
computes the odd kernel size, then `cv2.filter2D` with a `1 × k` uniform
kernel for `{left, right, horizontal}`, a `k × 1` uniform kernel for
`{up, down, vertical}`, and returns the frame unchanged otherwise.
`filter2D` correlates with anchor at the kernel centre; channel-wise on uint8
it rounds and saturates each output sample. -/
noncomputable def apply_motion_blur (h w : ℕ) (frame : Img) (motion_intensity : ℝ)
    (direction : String) : Img :=
  if direction = "left" ∨ direction = "right" ∨ direction = "horizontal" then
    fun y x => saturate_u8 (∑ t ∈ Finset.range (apply_motion_blur_kernel_size motion_intensity).toNat,
      1 / (apply_motion_blur_kernel_size motion_intensity : ℝ) *
        (frame y (borderReflect101 w
          (x + t - apply_motion_blur_kernel_size motion_intensity / 2)) : ℝ))
  else if direction = "up" ∨ direction = "down" ∨ direction = "vertical" then
    fun y x => saturate_u8 (∑ t ∈ Finset.range (apply_motion_blur_kernel_size motion_intensity).toNat,
      1 / (apply_motion_blur_kernel_size motion_intensity : ℝ) *
        (frame (borderReflect101 h
          (y + t - apply_motion_blur_kernel_size motion_intensity / 2)) x : ℝ))
  else frame

/-- C6: `apply_motion_blur` applies the uniform-weight 1-D convolution along
the horizontal axis for directions in `{left, right, horizontal}`, along the
vertical axis for `{up, down, vertical}`, and is a no-op (returns the input
frame unchanged, not an error) for every other direction string. -/
theorem C6_motion_blur_dispatch :
    ∀ (h w : ℕ) (frame : Img) (mi : ℝ) (d : String),
      (d = "left" ∨ d = "right" ∨ d = "horizontal" →
        apply_motion_blur h w frame mi d
          = boxBlur1D_horizontal w frame (apply_motion_blur_kernel_size mi)) ∧
      (d = "up" ∨ d = "down" ∨ d = "vertical" →
        apply_motion_blur h w frame mi d
          = boxBlur1D_vertical h frame (apply_motion_blur_kernel_size mi)) ∧
      (¬(d = "left" ∨ d = "right" ∨ d = "horizontal") →
       ¬(d = "up" ∨ d = "down" ∨ d = "vertical") →
        apply_motion_blur h w frame mi d = frame) := by
  intro h w frame mi d
  refine ⟨fun hd => ?_, fun hd => ?_, fun hd1 hd2 => ?_⟩
  · unfold apply_motion_blur boxBlur1D_horizontal
    rw [if_pos hd]
  · have hne : ¬(d = "left" ∨ d = "right" ∨ d = "horizontal") := by
      rcases hd with rfl | rfl | rfl <;> decide
    unfold apply_motion_blur boxBlur1D_vertical
    rw [if_neg hne, if_pos hd]
  · unfold apply_motion_blur
    rw [if_neg hd1, if_neg hd2]

/-- Witness for C6: at direction `"diagonal"` (unrecognised) the blur is a
no-op on a concrete frame; at `"left"` it is the horizontal box blur. -/
theorem C6_witness :
    apply_motion_blur 2 2 grayImg 0 "diagonal" = grayImg ∧
    apply_motion_blur 2 2 grayImg 0 "left"
      = boxBlur1D_horizontal 2 grayImg (apply_motion_blur_kernel_size 0) :=
  ⟨(C6_motion_blur_dispatch 2 2 grayImg 0 "diagonal").2.2 (by decide) (by decide),
   (C6_motion_blur_dispatch 2 2 grayImg 0 "left").1 (Or.inl rfl)⟩

-- ### C7: whip-pan cyclic shifts

/-- `np.roll(frame, offset, axis=1)` on a frame of width `w`:
`result[y][x] = frame[y][(x − offset) mod w]` (cyclic / toroidal shift along
the column axis). -/
def np_roll_axis1 (w : ℕ) (frame : Img) (offset : ℤ) : Img :=
  fun y x => frame y ((x - offset) % (w : ℤ))

/-- `np.roll(frame, offset, axis=0)` on a frame of height `h`: cyclic shift
along the row axis. -/
def np_roll_axis0 (h : ℕ) (frame : Img) (offset : ℤ) : Img :=
  fun y x => frame ((y - offset) % (h : ℤ)) x

/-- The translation stage of `create_whip_pan_transition` (lines 180–188):
for `{left, right}` the offset is `int(output_width · progress · s)` with
`s = 1` for `right` and `−1` otherwise, frame 1 is rolled by `offset` and
frame 2 by `offset − output_width` along axis 1; every other direction takes
the vertical branch with `s = 1` for `down` and `−1` otherwise, rolling along
axis 0 with extent `output_height`. -/
noncomputable def whip_pan_translate (w h : ℕ) (b1 b2 : Img) (direction : String)
    (progress : ℝ) : Img × Img :=
  if direction = "left" ∨ direction = "right" then
    (np_roll_axis1 w b1
      (pyInt ((w : ℝ) * progress * (if direction = "right" then 1 else -1))),
     np_roll_axis1 w b2
      (pyInt ((w : ℝ) * progress * (if direction = "right" then 1 else -1)) - w))
  else
    (np_roll_axis0 h b1
      (pyInt ((h : ℝ) * progress * (if direction = "down" then 1 else -1))),
     np_roll_axis0 h b2
      (pyInt ((h : ℝ) * progress * (if direction = "down" then 1 else -1)) - h))

/-- The claim's `sign(direction)`: `+1` for `{right, down}`, `−1` for
`{left, up}`. -/
noncomputable def whip_pan_sign (direction : String) : ℝ :=
  if direction = "right" ∨ direction = "down" then 1 else -1

theorem np_roll_axis1_wrap (w : ℕ) (f : Img) (off : ℤ) :
    np_roll_axis1 w f (off + w) = np_roll_axis1 w f off := by
  funext y x
  unfold np_roll_axis1
  rw [show x - (off + (w : ℤ)) = x - off + (w : ℤ) * (-1) by ring,
    Int.add_mul_emod_self_left]

theorem np_roll_axis0_wrap (h : ℕ) (f : Img) (off : ℤ) :
    np_roll_axis0 h f (off + h) = np_roll_axis0 h f off := by
  funext y x
  unfold np_roll_axis0
  rw [show y - (off + (h : ℤ)) = y - off + (h : ℤ) * (-1) by ring,
    Int.add_mul_emod_self_left]

/-- C7: for each of the four pan directions, the outgoing frame is cyclically
shifted by `int(extent · progress · sign(direction))` along the pan axis
(extent `w` horizontally, `h` vertically) and the incoming frame by that
amount minus the extent; shifts wrap toroidally (shifting by
`offset + extent` equals shifting by `offset`). -/
theorem C7_whip_pan_shift :
    ∀ (w h : ℕ) (b1 b2 : Img) (p : ℝ),
      (whip_pan_translate w h b1 b2 "right" p =
        (np_roll_axis1 w b1 (pyInt ((w : ℝ) * p * whip_pan_sign "right")),
         np_roll_axis1 w b2 (pyInt ((w : ℝ) * p * whip_pan_sign "right") - w))) ∧
      (whip_pan_translate w h b1 b2 "left" p =
        (np_roll_axis1 w b1 (pyInt ((w : ℝ) * p * whip_pan_sign "left")),
         np_roll_axis1 w b2 (pyInt ((w : ℝ) * p * whip_pan_sign "left") - w))) ∧
      (whip_pan_translate w h b1 b2 "down" p =
        (np_roll_axis0 h b1 (pyInt ((h : ℝ) * p * whip_pan_sign "down")),
         np_roll_axis0 h b2 (pyInt ((h : ℝ) * p * whip_pan_sign "down") - h))) ∧
      (whip_pan_translate w h b1 b2 "up" p =
        (np_roll_axis0 h b1 (pyInt ((h : ℝ) * p * whip_pan_sign "up")),
         np_roll_axis0 h b2 (pyInt ((h : ℝ) * p * whip_pan_sign "up") - h))) ∧
      (∀ (f : Img) (off : ℤ),
        np_roll_axis1 w f (off + w) = np_roll_axis1 w f off ∧
        np_roll_axis0 h f (off + h) = np_roll_axis0 h f off) := by
  intro w h b1 b2 p
  have hsr : whip_pan_sign "right" = 1 := by rw [whip_pan_sign, if_pos (Or.inl rfl)]
  have hsl : whip_pan_sign "left" = -1 := by rw [whip_pan_sign, if_neg (by decide)]
  have hsd : whip_pan_sign "down" = 1 := by rw [whip_pan_sign, if_pos (Or.inr rfl)]
  have hsu : whip_pan_sign "up" = -1 := by rw [whip_pan_sign, if_neg (by decide)]
  refine ⟨?_, ?_, ?_, ?_, fun f off => ⟨np_roll_axis1_wrap w f off, np_roll_axis0_wrap h f off⟩⟩
  · rw [whip_pan_translate, if_pos (Or.inr rfl), if_pos rfl, hsr]
  · rw [whip_pan_translate, if_pos (Or.inl rfl), if_neg (by decide), hsl]
  · rw [whip_pan_translate, if_neg (by decide), if_pos rfl, hsd]
  · rw [whip_pan_translate, if_neg (by decide), if_neg (by decide), hsu]

-- ### Remaining image operations used by the transition pipelines

/-- `cv2.GaussianBlur(frame, (k, k), 0)` auto-derives the standard deviation
from the kernel size: `σ = 0.3·((k − 1)·0.5 − 1) + 0.8`. -/
noncomputable def gaussianSigma (k : ℤ) : ℝ :=
  0.3 * (((k : ℝ) - 1) * 0.5 - 1) + 0.8

/-- Unnormalised sampled-Gaussian tap `t` of a length-`k` kernel. -/
noncomputable def gaussianWeight (k : ℤ) (t : ℕ) : ℝ :=
  Real.exp (-(((t : ℝ) - ((k : ℝ) - 1) / 2) ^ 2) / (2 * gaussianSigma k ^ 2))

/-- `apply_progressive_blur(frame, blur_intensity)` (lines 42–47): Gaussian
blur with the square kernel of `apply_progressive_blur_kernel_size`.  The
separable sampled-Gaussian filter is modelled over the reals with normalised
weights and reflect-101 borders; OpenCV's fixed-point small-kernel
coefficient tables are idealised away (no claim depends on the blurred
sample values, only on the kernel size, handled by
`apply_progressive_blur_kernel_size`). -/
noncomputable def apply_progressive_blur (h w : ℕ) (frame : Img)
    (blur_intensity : ℝ) : Img :=
  fun y x =>
    saturate_u8 (∑ ty ∈ Finset.range (apply_progressive_blur_kernel_size blur_intensity).toNat,
      ∑ tx ∈ Finset.range (apply_progressive_blur_kernel_size blur_intensity).toNat,
        gaussianWeight (apply_progressive_blur_kernel_size blur_intensity) ty /
            (∑ t ∈ Finset.range (apply_progressive_blur_kernel_size blur_intensity).toNat,
              gaussianWeight (apply_progressive_blur_kernel_size blur_intensity) t) *
          (gaussianWeight (apply_progressive_blur_kernel_size blur_intensity) tx /
            (∑ t ∈ Finset.range (apply_progressive_blur_kernel_size blur_intensity).toNat,
              gaussianWeight (apply_progressive_blur_kernel_size blur_intensity) t)) *
          (frame
            (borderReflect101 h (y + ty - apply_progressive_blur_kernel_size blur_intensity / 2))
            (borderReflect101 w (x + tx - apply_progressive_blur_kernel_size blur_intensity / 2)) : ℝ))

/-- `np.hstack([left, right])` for two frames of width `w`: the left frame on
columns `[0, w)`, the right frame on columns `[w, 2w)`. -/
def hstack (w : ℕ) (left right : Img) : Img :=
  fun y x => if x < (w : ℤ) then left y x else right y (x - w)

-- ### Transition pipeline loop

/-- The only exception the per-step loop body can raise:
`frame_num / (duration_frames - 1)` divides by zero when
`duration_frames = 1`. -/
inductive PyError where
  | zeroDivisionError
deriving DecidableEq

/-- Observable outcome of one transition-generation call: the frames written
to the sink (`cv2.VideoWriter.write`, in order), the number of
`cv2.VideoCapture.read` calls made, and the exception raised, if any. -/
structure RunOutcome where
  emitted : List Img
  pulled : ℕ
  error : Option PyError

/-- A pipeline entry point's full result: the run outcome plus the Python
function's return value.  None of the four `create_*` functions has a
`return` statement, so each returns `None`. -/
structure PipelineResult where
  outcome : RunOutcome
  retval : Option ℕ

/-- The per-step loop shared verbatim (lines 78–99, 116–144, 161–199,
217–248) by all four `create_*` functions:
`for frame_num in range(duration_frames)`, read one frame from each capture
(both reads always happen), break on end-of-stream of either, raise
`ZeroDivisionError` at the progress computation when `duration_frames = 1`,
otherwise compute this step's output frame (`step frame_num f1 f2`) and write
it.  `frame_num` is the current index and `r` the remaining iteration count
of the `range`. -/
def transition_loop (step : ℕ → Img → Img → Img) (duration_frames : ℤ) :
    ℕ → ℕ → List Img → List Img → RunOutcome
  | _, 0, _, _ => ⟨[], 0, none⟩
  | frame_num, r + 1, s1, s2 =>
    match s1, s2 with
    | f1 :: t1, f2 :: t2 =>
      if duration_frames = 1 then ⟨[], 2, some PyError.zeroDivisionError⟩
      else
        let rest := transition_loop step duration_frames (frame_num + 1) r t1 t2
        ⟨step frame_num f1 f2 :: rest.emitted, 2 + rest.pulled, rest.error⟩
    | _, _ => ⟨[], 2, none⟩

/-- `create_enhanced_dissolve_transition` (lines 68–104): per step, blend the
two frames at `progress = frame_num / (duration_frames − 1)`. -/
noncomputable def create_enhanced_dissolve_transition (s1 s2 : List Img)
    (duration_frames : ℤ) : PipelineResult :=
  ⟨transition_loop
      (fun frame_num f1 f2 =>
        enhanced_blend_frames f1 f2 ((frame_num : ℝ) / ((duration_frames : ℝ) - 1)))
      duration_frames 0 duration_frames.toNat s1 s2,
   none⟩

/-- `create_progressive_blur_transition` (lines 106–149): per step, blur both
frames at the pulse intensity of the progress, then blend at the progress. -/
noncomputable def create_progressive_blur_transition (w h : ℕ) (s1 s2 : List Img)
    (duration_frames : ℤ) : PipelineResult :=
  ⟨transition_loop
      (fun frame_num f1 f2 =>
        enhanced_blend_frames
          (apply_progressive_blur h w f1
            (progressive_blur_intensity ((frame_num : ℝ) / ((duration_frames : ℝ) - 1))))
          (apply_progressive_blur h w f2
            (progressive_blur_intensity ((frame_num : ℝ) / ((duration_frames : ℝ) - 1))))
          ((frame_num : ℝ) / ((duration_frames : ℝ) - 1)))
      duration_frames 0 duration_frames.toNat s1 s2,
   none⟩

/-- `create_whip_pan_transition` (lines 151–204): per step, motion-blur both
frames at the (inline) pulse intensity, cyclically shift them per the
direction, then blend at the progress. -/
noncomputable def create_whip_pan_transition (w h : ℕ) (s1 s2 : List Img)
    (direction : String) (duration_frames : ℤ) : PipelineResult :=
  ⟨transition_loop
      (fun frame_num f1 f2 =>
        enhanced_blend_frames
          (whip_pan_translate w h
            (apply_motion_blur h w f1
              (4 * ((frame_num : ℝ) / ((duration_frames : ℝ) - 1)) *
                (1 - (frame_num : ℝ) / ((duration_frames : ℝ) - 1))) direction)
            (apply_motion_blur h w f2
              (4 * ((frame_num : ℝ) / ((duration_frames : ℝ) - 1)) *
                (1 - (frame_num : ℝ) / ((duration_frames : ℝ) - 1))) direction)
            direction ((frame_num : ℝ) / ((duration_frames : ℝ) - 1))).1
          (whip_pan_translate w h
            (apply_motion_blur h w f1
              (4 * ((frame_num : ℝ) / ((duration_frames : ℝ) - 1)) *
                (1 - (frame_num : ℝ) / ((duration_frames : ℝ) - 1))) direction)
            (apply_motion_blur h w f2
              (4 * ((frame_num : ℝ) / ((duration_frames : ℝ) - 1)) *
                (1 - (frame_num : ℝ) / ((duration_frames : ℝ) - 1))) direction)
            direction ((frame_num : ℝ) / ((duration_frames : ℝ) - 1))).2
          ((frame_num : ℝ) / ((duration_frames : ℝ) - 1)))
      duration_frames 0 duration_frames.toNat s1 s2,
   none⟩

/-- `create_comparison_demo` (lines 206–253): per step, the linear blend and
the cosine blend side by side in a double-width frame. -/
noncomputable def create_comparison_demo (w : ℕ) (s1 s2 : List Img)
    (duration_frames : ℤ) : PipelineResult :=
  ⟨transition_loop
      (fun frame_num f1 f2 =>
        hstack w
          (addWeighted f1 f2 (1 - (frame_num : ℝ) / ((duration_frames : ℝ) - 1))
            ((frame_num : ℝ) / ((duration_frames : ℝ) - 1)) 0)
          (enhanced_blend_frames f1 f2 ((frame_num : ℝ) / ((duration_frames : ℝ) - 1))))
      duration_frames 0 duration_frames.toNat s1 s2,
   none⟩

-- ### Loop behaviour

theorem transition_loop_spec (step : ℕ → Img → Img → Img) (d : ℤ) (hd : d ≠ 1) :
    ∀ (r n : ℕ) (s1 s2 : List Img),
      (transition_loop step d n r s1 s2).error = none ∧
      (transition_loop step d n r s1 s2).emitted.length
        = min r (min s1.length s2.length) := by
  intro r
  induction r with
  | zero => intro n s1 s2; simp [transition_loop]
  | succ r ih =>
    intro n s1 s2
    match s1, s2 with
    | [], _ => simp [transition_loop]
    | _ :: _, [] => simp [transition_loop]
    | f1 :: t1, f2 :: t2 =>
      have h := ih (n + 1) t1 t2
      simp only [transition_loop, if_neg hd, List.length_cons]
      refine ⟨h.1, ?_⟩
      rw [h.2]
      omega

theorem transition_loop_nonpos (step : ℕ → Img → Img → Img) {d : ℤ} (hd : d ≤ 0)
    (s1 s2 : List Img) :
    transition_loop step d 0 d.toNat s1 s2 = ⟨[], 0, none⟩ := by
  rw [Int.toNat_of_nonpos hd]
  rfl

theorem transition_loop_one_cons (step : ℕ → Img → Img → Img) (f1 f2 : Img)
    (t1 t2 : List Img) :
    transition_loop step 1 0 (Int.toNat 1) (f1 :: t1) (f2 :: t2)
      = ⟨[], 2, some PyError.zeroDivisionError⟩ := by
  simp [transition_loop]

-- ### C2: step-count validation

/-- C2 counterexample: calling the dissolve entry point with
`total_steps = 0 < 2` does not fail at all — it terminates normally, emits no
frame, raises no error, and pulls no frame; there is no `InvalidStepCount`
validation in the code. -/
theorem C2_counterexample :
    (create_enhanced_dissolve_transition [blackImg] [blackImg] 0).outcome.error = none ∧
    (create_enhanced_dissolve_transition [blackImg] [blackImg] 0).outcome.pulled = 0 ∧
    (create_enhanced_dissolve_transition [blackImg] [blackImg] 0).outcome.emitted = [] :=
  ⟨rfl, rfl, rfl⟩

/-- C2 amended: no pipeline-entry validation exists.  With
`total_steps ≤ 0` every entry point returns normally, emitting nothing and
pulling no frame; with `total_steps = 1` and both sources non-empty, each
entry point pulls one frame from each source and only then raises
`ZeroDivisionError` at the progress computation. -/
theorem C2_amended_no_validation :
    ∀ (w h : ℕ) (dir : String) (s1 s2 : List Img) (d : ℤ),
      (d ≤ 0 →
        (create_enhanced_dissolve_transition s1 s2 d).outcome = ⟨[], 0, none⟩ ∧
        (create_progressive_blur_transition w h s1 s2 d).outcome = ⟨[], 0, none⟩ ∧
        (create_whip_pan_transition w h s1 s2 dir d).outcome = ⟨[], 0, none⟩ ∧
        (create_comparison_demo w s1 s2 d).outcome = ⟨[], 0, none⟩) ∧
      (∀ (f1 f2 : Img) (t1 t2 : List Img), d = 1 → s1 = f1 :: t1 → s2 = f2 :: t2 →
        (create_enhanced_dissolve_transition s1 s2 d).outcome
          = ⟨[], 2, some PyError.zeroDivisionError⟩ ∧
        (create_progressive_blur_transition w h s1 s2 d).outcome
          = ⟨[], 2, some PyError.zeroDivisionError⟩ ∧
        (create_whip_pan_transition w h s1 s2 dir d).outcome
          = ⟨[], 2, some PyError.zeroDivisionError⟩ ∧
        (create_comparison_demo w s1 s2 d).outcome
          = ⟨[], 2, some PyError.zeroDivisionError⟩) := by
  intro w h dir s1 s2 d
  constructor
  · intro hd
    exact ⟨transition_loop_nonpos _ hd s1 s2, transition_loop_nonpos _ hd s1 s2,
      transition_loop_nonpos _ hd s1 s2, transition_loop_nonpos _ hd s1 s2⟩
  · rintro f1 f2 t1 t2 rfl rfl rfl
    refine ⟨?_, ?_, ?_, ?_⟩ <;>
      simp only [create_enhanced_dissolve_transition, create_progressive_blur_transition,
        create_whip_pan_transition, create_comparison_demo] <;>
      exact transition_loop_one_cons _ f1 f2 t1 t2

/-- Witness for C2 on concrete inputs: `total_steps = 0` runs to normal
completion, and `total_steps = 1` on non-empty sources pulls two frames and
raises `ZeroDivisionError`. -/
theorem C2_witness :
    (create_enhanced_dissolve_transition [blackImg] [blackImg] 0).outcome = ⟨[], 0, none⟩ ∧
    (create_enhanced_dissolve_transition [blackImg] [blackImg] 1).outcome
      = ⟨[], 2, some PyError.zeroDivisionError⟩ :=
  ⟨((C2_amended_no_validation 1 1 "left" [blackImg] [blackImg] 0).1 (by norm_num)).1,
   ((C2_amended_no_validation 1 1 "left" [blackImg] [blackImg] 1).2
      blackImg blackImg [] [] rfl rfl rfl).1⟩

-- ### C1: entry-point return value and emitted count

/-- C1 counterexample: the dissolve entry point on two 2-frame sources with
`total_steps = 2` emits 2 frames but returns `None` — it does not return the
count of frames emitted (no `create_*` function has a return statement). -/
theorem C1_counterexample :
    (create_enhanced_dissolve_transition [blackImg, blackImg] [blackImg, blackImg]
        2).outcome.emitted.length = 2 ∧
    (create_enhanced_dissolve_transition [blackImg, blackImg] [blackImg, blackImg]
        2).retval = none ∧
    (create_enhanced_dissolve_transition [blackImg, blackImg] [blackImg, blackImg]
        2).retval ≠
      some (create_enhanced_dissolve_transition [blackImg, blackImg] [blackImg, blackImg]
        2).outcome.emitted.length := by
  refine ⟨?_, rfl, ?_⟩
  · rfl
  · intro hcontra
    exact Option.noConfusion hcontra

/-- C1 amended: each of the four entry points emits exactly
`min total_steps (min |source1| |source2|)` frames — possibly fewer than
`total_steps` on early end-of-stream — but returns `None`, not the count of
frames emitted. -/
theorem C1_amended_emit_count_return_none :
    ∀ (w h : ℕ) (dir : String) (s1 s2 : List Img) (d : ℤ), 2 ≤ d →
      ((create_enhanced_dissolve_transition s1 s2 d).outcome.emitted.length
          = min d.toNat (min s1.length s2.length) ∧
        (create_enhanced_dissolve_transition s1 s2 d).retval = none) ∧
      ((create_progressive_blur_transition w h s1 s2 d).outcome.emitted.length
          = min d.toNat (min s1.length s2.length) ∧
        (create_progressive_blur_transition w h s1 s2 d).retval = none) ∧
      ((create_whip_pan_transition w h s1 s2 dir d).outcome.emitted.length
          = min d.toNat (min s1.length s2.length) ∧
        (create_whip_pan_transition w h s1 s2 dir d).retval = none) ∧
      ((create_comparison_demo w s1 s2 d).outcome.emitted.length
          = min d.toNat (min s1.length s2.length) ∧
        (create_comparison_demo w s1 s2 d).retval = none) := by
  intro w h dir s1 s2 d hd
  have hd1 : d ≠ 1 := by omega
  exact ⟨⟨(transition_loop_spec _ d hd1 d.toNat 0 s1 s2).2, rfl⟩,
    ⟨(transition_loop_spec _ d hd1 d.toNat 0 s1 s2).2, rfl⟩,
    ⟨(transition_loop_spec _ d hd1 d.toNat 0 s1 s2).2, rfl⟩,
    ⟨(transition_loop_spec _ d hd1 d.toNat 0 s1 s2).2, rfl⟩⟩

/-- Witness for C1 (amended) on concrete inputs: with `total_steps = 2` and a
1-frame first source, the dissolve emits `min 2 (min 1 2) = 1` frame and
returns `None`. -/
theorem C1_witness :
    (create_enhanced_dissolve_transition [blackImg] [blackImg, grayImg]
        2).outcome.emitted.length
      = min (Int.toNat 2) (min [blackImg].length [blackImg, grayImg].length) ∧
    (create_enhanced_dissolve_transition [blackImg] [blackImg, grayImg] 2).retval = none :=
  (C1_amended_emit_count_return_none 1 1 "left" [blackImg] [blackImg, grayImg] 2
    (by norm_num)).1

-- ### C9: termination and silent truncation on end-of-stream

/-- C9: for every transition type (with a valid step count `≥ 2`), the
per-step loop raises no error: it stops at the first step where either source
signals end-of-stream or `step = total_steps`, so the emitted count is
`min total_steps (min |source1| |source2|)`; in particular a source that ends
early silently truncates the output to `min |source1| |source2|` frames and
no frame is emitted for the step at which end-of-stream was observed. -/
theorem C9_early_eos_truncates :
    ∀ (w h : ℕ) (dir : String) (s1 s2 : List Img) (d : ℤ), 2 ≤ d →
      ((create_enhanced_dissolve_transition s1 s2 d).outcome.error = none ∧
        (create_enhanced_dissolve_transition s1 s2 d).outcome.emitted.length
          = min d.toNat (min s1.length s2.length)) ∧
      ((create_progressive_blur_transition w h s1 s2 d).outcome.error = none ∧
        (create_progressive_blur_transition w h s1 s2 d).outcome.emitted.length
          = min d.toNat (min s1.length s2.length)) ∧
      ((create_whip_pan_transition w h s1 s2 dir d).outcome.error = none ∧
        (create_whip_pan_transition w h s1 s2 dir d).outcome.emitted.length
          = min d.toNat (min s1.length s2.length)) ∧
      ((create_comparison_demo w s1 s2 d).outcome.error = none ∧
        (create_comparison_demo w s1 s2 d).outcome.emitted.length
          = min d.toNat (min s1.length s2.length)) ∧
      (min s1.length s2.length < d.toNat →
        (create_enhanced_dissolve_transition s1 s2 d).outcome.emitted.length
          = min s1.length s2.length) := by
  intro w h dir s1 s2 d hd
  have hd1 : d ≠ 1 := by omega
  refine ⟨transition_loop_spec _ d hd1 d.toNat 0 s1 s2,
    transition_loop_spec _ d hd1 d.toNat 0 s1 s2,
    transition_loop_spec _ d hd1 d.toNat 0 s1 s2,
    transition_loop_spec _ d hd1 d.toNat 0 s1 s2, fun hshort => ?_⟩
  have hlen : (create_enhanced_dissolve_transition s1 s2 d).outcome.emitted.length
      = min d.toNat (min s1.length s2.length) :=
    (transition_loop_spec _ d hd1 d.toNat 0 s1 s2).2
  rw [hlen]
  omega

/-- Witness for C9 on concrete inputs: with `total_steps = 3` and 1-frame
sources the dissolve raises no error and emits exactly one frame (the
end-of-stream step emits nothing). -/
theorem C9_witness :
    ((create_enhanced_dissolve_transition [blackImg] [grayImg] 3).outcome.error = none ∧
      (create_enhanced_dissolve_transition [blackImg] [grayImg] 3).outcome.emitted.length
        = min (Int.toNat 3) (min [blackImg].length [grayImg].length)) ∧
    (min [blackImg].length [grayImg].length < Int.toNat 3 →
      (create_enhanced_dissolve_transition [blackImg] [grayImg] 3).outcome.emitted.length
        = min [blackImg].length [grayImg].length) :=
  ⟨(C9_early_eos_truncates 1 1 "left" [blackImg] [grayImg] 3 (by norm_num)).1,
   (C9_early_eos_truncates 1 1 "left" [blackImg] [grayImg] 3 (by norm_num)).2.2.2.2⟩

end EVT
